import Mathlib

/-!
Verification development for the interaction-orchestration backend
(frame ingest, facial-recognition service, switch detector, conversation
orchestrator, summarizer and database layer).

Each definition is a shallow embedding of one Python function of the
repository; the source file and symbol it mirrors is named in its doc
comment.  Machine reals (numpy float32 arithmetic) are idealised as `ℝ`
where square roots occur (cosine similarity) and as `ℚ` where the code
does only field arithmetic and comparisons (FPS estimation, thresholds,
timestamps).
-/

namespace HackUTD

/-- Python `int(x)` on a number: truncation toward zero. -/
def pyInt (x : ℚ) : ℤ :=
  if 0 ≤ x then ⌊x⌋ else -⌊-x⌋

theorem pyInt_of_nonneg (x : ℚ) (h : 0 ≤ x) : pyInt x = ⌊x⌋ := by
  simp [pyInt, h]

/-! ## Frame ingest queue (websocket_server.py)

`start_esp32_processing` creates `queue.Queue(maxsize=2)`; the reader
thread `_process_esp32_frames` pushes each successfully read frame with
`put_nowait` and on `queue.Full` skips (drops) the arriving frame.  A
frame is a JPEG byte payload; its contents are irrelevant here, so frames
are modelled as `ℕ` tags. -/

/-- The recognition queue: front of the list is the oldest element. -/
abbrev FrameQueue := List ℕ

/-- Capacity of the recognition queue (`queue.Queue(maxsize=2)` in
`WebSocketServer.start_esp32_processing`). -/
def frameQueueCapacity : ℕ := 2

/-- `WebSocketServer._process_esp32_frames`, enqueue step:
`face_recognition_queue.put_nowait(frame_data)` guarded by
`except queue.Full: queue_dropped = True`.  Returns the new queue and
whether the arriving frame was dropped.  The call never waits. -/
def enqueueFrame (q : FrameQueue) (f : ℕ) : FrameQueue × Bool :=
  if q.length < frameQueueCapacity then (q ++ [f], false) else (q, true)

/-- Modelled from the spec: drop-oldest-on-full enqueue ("if the queue is
full the oldest queued frame is discarded and the new frame is
enqueued").  Stated only to be compared with `enqueueFrame`. -/
def dropOldestEnqueue (q : FrameQueue) (f : ℕ) : FrameQueue :=
  if q.length < frameQueueCapacity then q ++ [f] else q.tail ++ [f]

/-- One interaction with the queue: the reader enqueues a frame, or the
recognition worker takes one (`face_recognition_queue.get`). -/
inductive QueueOp where
  | put (f : ℕ)
  | take
  deriving DecidableEq, Repr

/-- Apply one queue operation. -/
def queueStep (q : FrameQueue) : QueueOp → FrameQueue
  | .put f => (enqueueFrame q f).1
  | .take => q.tail

/-- Run a whole interleaving of producer and consumer operations,
starting from the empty queue the server creates. -/
def runFrameQueue (ops : List QueueOp) : FrameQueue :=
  ops.foldl queueStep []

theorem queueStep_length_le (q : FrameQueue) (op : QueueOp)
    (h : q.length ≤ frameQueueCapacity) :
    (queueStep q op).length ≤ frameQueueCapacity := by
  cases op with
  | put f =>
      simp only [queueStep, enqueueFrame]
      split
      · simpa using by omega
      · simpa using h
  | take =>
      simp only [queueStep]
      calc q.tail.length ≤ q.length := by
            cases q <;> simp
        _ ≤ frameQueueCapacity := h

theorem runFrameQueue_length_le (ops : List QueueOp) :
    (runFrameQueue ops).length ≤ frameQueueCapacity := by
  suffices h : ∀ q : FrameQueue, q.length ≤ frameQueueCapacity →
      (ops.foldl queueStep q).length ≤ frameQueueCapacity from
    h [] (by simp [frameQueueCapacity])
  induction ops with
  | nil => intro q hq; simpa using hq
  | cons op rest ih =>
      intro q hq
      exact ih _ (queueStep_length_le q op hq)

/-! ## Frame ingest error handling (websocket_server.py)

`_process_esp32_frames` keeps `consecutive_errors`, increments it on
every framing/read error and `break`s as soon as it reaches
`max_consecutive_errors = 10`; a successfully read frame resets it to 0
(the reset happens right after the payload read, before JPEG decode). -/

/-- Outcome of one iteration of the ingest loop: a framing/read error
(header read failure, bad magic, bad length, payload failure, socket
timeout) or a successfully read frame. -/
inductive IngestEvent where
  | err
  | ok
  deriving DecidableEq, Repr

/-- `max_consecutive_errors` in `_process_esp32_frames`. -/
def maxConsecutiveErrors : ℕ := 10

/-- Run the ingest loop's error bookkeeping over a list of per-iteration
outcomes starting from consecutive-error count `ce`.  Returns
`(alive, finalCount)`: `alive = false` means the loop executed `break`
(`consecutive_errors >= max_consecutive_errors`). -/
def runIngest (ce : ℕ) : List IngestEvent → Bool × ℕ
  | [] => (true, ce)
  | .err :: rest =>
      if ce + 1 ≥ maxConsecutiveErrors then (false, ce + 1)
      else runIngest (ce + 1) rest
  | .ok :: rest => runIngest 0 rest

/-- The loop from its initial state (`consecutive_errors = 0`). -/
def ingestAlive (evs : List IngestEvent) : Bool :=
  (runIngest 0 evs).1

/-! ## Facial recognition service (facial_recognition_service.py)

Embeddings are modelled as `List ℝ`; numpy `float32` arithmetic is
idealised as real arithmetic.  The persisted gallery is an ordered
association list `List (String × List ℝ)`, mirroring the insertion-ordered
Python dict built by `load_face_database_from_db` (row order of the
unordered SQL query, not sorted). -/

/-- `MATCH_THRESHOLD = 0.2` (cosine similarity). -/
noncomputable def matchThreshold : ℝ := 1/5

/-- Sum of squares of the components (inner part of `np.linalg.norm`). -/
noncomputable def sumSq (v : List ℝ) : ℝ := (v.map fun x => x * x).sum

/-- `np.dot` of two vectors. -/
noncomputable def dotL (v w : List ℝ) : ℝ := (List.zipWith (· * ·) v w).sum

/-- `np.linalg.norm`: Euclidean norm. -/
noncomputable def normL (v : List ℝ) : ℝ := Real.sqrt (sumSq v)

/-- Cosine similarity as computed in `find_best_match`:
`np.dot(a, b) / (norm(a) * norm(b))`. -/
noncomputable def cosineSim (v w : List ℝ) : ℝ := dotL v w / (normL v * normL w)

/-- The entry loop of `FacialRecognitionService.find_best_match`: skip
entries with empty or zero-norm embeddings, keep the running best under
a strict `score > best_score` comparison. -/
noncomputable def findBestLoop (q : List ℝ) (qnorm : ℝ) :
    List (String × List ℝ) → Option String × ℝ → Option String × ℝ
  | [], acc => acc
  | (pid, e) :: rest, acc =>
      if e.length = 0 then findBestLoop q qnorm rest acc
      else if normL e = 0 then findBestLoop q qnorm rest acc
      else
        let score := dotL q e / (qnorm * normL e)
        if score > acc.2 then findBestLoop q qnorm rest (some pid, score)
        else findBestLoop q qnorm rest acc

/-- `FacialRecognitionService.find_best_match`. -/
noncomputable def findBestMatch (q : List ℝ) (db : List (String × List ℝ)) :
    Option String × ℝ :=
  if db = [] then (none, -1)
  else if q.length = 0 then (none, -1)
  else if normL q = 0 then (none, -1)
  else findBestLoop q (normL q) db (none, -1)

/-- The in-session running averages `embedding_averages`:
`person_id -> (averaged_embedding, count)`. -/
abbrev Averages := List (String × (List ℝ × ℕ))

/-- Python dict assignment `embedding_averages[k] = v`. -/
def setAvg (avgs : Averages) (k : String) (v : List ℝ × ℕ) : Averages :=
  if avgs.any (fun p => p.1 == k) then
    avgs.map fun p => if p.1 == k then (k, v) else p
  else avgs ++ [(k, v)]

/-- The match-path update of `recognize_person` (running average fold):
`new_avg = (old_avg * count + e) / (count + 1)` when the person already
has a session average, else initialise the average to `(e, 1)` —
ignoring whatever centroid and count the store holds. -/
noncomputable def foldSessionAverage (avgs : Averages) (m : String) (e : List ℝ) :
    Averages :=
  match List.lookup m avgs with
  | some (avg, count) =>
      let newCount := count + 1
      let newAvg := List.zipWith
        (fun a b => (a * (count : ℝ) + b) / (newCount : ℝ)) avg e
      setAvg avgs m (newAvg, newCount)
  | none => setAvg avgs m (e, 1)

/-- Keyword parameters accepted by `DatabaseManager.create_or_update_face`
(database.py): `person_id, embedding, count, socials, recap`. -/
def createOrUpdateFaceParams : List String :=
  ["person_id", "embedding", "count", "socials", "recap"]

/-- One call to `DatabaseManager.create_or_update_face` (the arguments
that were passed; `None` arguments keep the stored column via COALESCE). -/
structure FaceWrite where
  person_id : String
  embedding : Option (List ℝ)
  count : Option ℕ
  recap : Option String

/-- A Python keyword call to `create_or_update_face`: passing a keyword
the method signature does not accept raises `TypeError` before the body
runs. -/
def callCreateOrUpdateFace (kwargs : List String) (w : FaceWrite) :
    Except Unit FaceWrite :=
  if kwargs.all (fun k => createOrUpdateFaceParams.contains k) then .ok w
  else .error ()

/-- The SQL effect of `create_or_update_face` on the `faces` table
(`INSERT ... ON CONFLICT (person_id) DO UPDATE SET col =
COALESCE(EXCLUDED.col, faces.col)`): rows reuse the `FaceWrite` shape,
one row per person (the unused `socials` column is omitted like in
`FaceWrite`). -/
def applyFaceWrite (rows : List FaceWrite) (w : FaceWrite) : List FaceWrite :=
  if rows.any (fun r => r.person_id == w.person_id) then
    rows.map fun r =>
      if r.person_id == w.person_id then
        { r with
          embedding := match w.embedding with
            | some e => some e
            | none => r.embedding,
          count := match w.count with
            | some c => some c
            | none => r.count,
          recap := match w.recap with
            | some t => some t
            | none => r.recap }
      else r
  else rows ++ [w]

/-- `FacialRecognitionService.recognize_person`.

Parameters: `extract` is the face-embedding model
(`get_embedding_from_image_data`, a pure `image → embedding | none`
collaborator: decode failure, no face, or detection score `< 0.5` all
yield `none`); `db` the loaded gallery; `freshId` the
`Unnamed_<hex8>` drawn from `uuid4` on the no-match path.

Returns `(person_id, updated averages, database writes)`.

On the no-match path the source calls `create_or_update_face(...,
person_name="Unknown")`; `create_or_update_face` has no `person_name`
parameter, so the call raises `TypeError`, which the surrounding
`except Exception` swallows — the insert and the
`embedding_averages[new_person_id] = (e, 1)` initialisation that follows
it are both skipped, and the new id is still returned. -/
noncomputable def recognizePerson (extract : List ℕ → Option (List ℝ))
    (db : List (String × List ℝ)) (freshId : String)
    (avgs : Averages) (image : List ℕ) :
    Option String × Averages × List FaceWrite :=
  if image.length = 0 then (none, avgs, [])
  else
    match extract image with
    | none => (none, avgs, [])
    | some e =>
      let best := findBestMatch e db
      match best.1 with
      | some m =>
          if best.2 ≥ matchThreshold then (some m, foldSessionAverage avgs m e, [])
          else if db = [] ∨ best.2 < matchThreshold then
            match callCreateOrUpdateFace
                ["person_id", "embedding", "count", "person_name"]
                ⟨freshId, some e, some 1, none⟩ with
            | .ok w => (some freshId, setAvg avgs freshId (e, 1), [w])
            | .error _ => (some freshId, avgs, [])
          else (none, avgs, [])
      | none =>
          if db = [] ∨ best.2 < matchThreshold then
            match callCreateOrUpdateFace
                ["person_id", "embedding", "count", "person_name"]
                ⟨freshId, some e, some 1, none⟩ with
            | .ok w => (some freshId, setAvg avgs freshId (e, 1), [w])
            | .error _ => (some freshId, avgs, [])
          else (none, avgs, [])

/-- `FacialRecognitionService._save_averaged_embedding`: persist the
in-session average for `pid` (skipped when the person has no session
average or it is empty; `tobytes()` of a non-empty vector is non-empty).
This call passes only accepted keywords, so it goes through. -/
def saveAveragedEmbedding (avgs : Averages) (pid : String) : List FaceWrite :=
  if pid = "" then []
  else
    match List.lookup pid avgs with
    | none => []
    | some (avg, count) =>
        if avg.length = 0 then []
        else
          match callCreateOrUpdateFace ["person_id", "embedding", "count"]
              ⟨pid, some avg, some count, none⟩ with
          | .ok w => [w]
          | .error _ => []

/-- Mutable fields of `FacialRecognitionService` used by the switching
logic (`__init__` defaults: empty history, no current person, no
timestamps, `current_fps = 10.0`, `history_size = 10`). -/
structure ServiceState where
  frame_history : List (Option String)
  current_person_id : Option String
  frame_timestamps : List ℚ
  current_fps : ℚ
  history_size : ℕ
  embedding_averages : Averages

/-- `fps_window_size = 30`. -/
def fpsWindowSize : ℕ := 30

/-- The FPS estimate `_update_fps` derives from the retained timestamps:
`(len - 1) / (ts[-1] - ts[0])` when at least two samples exist and the
span is positive, else the default `10.0`. -/
def fpsFromTimestamps (ts : List ℚ) : ℚ :=
  if 2 ≤ ts.length then
    let span := ts.getLastD 0 - ts.headD 0
    if 0 < span then ((ts.length : ℚ) - 1) / span else 10
  else 10

/-- Window size as a function of the FPS estimate:
`max(5, min(30, int(fps)))` (`_update_fps`, last line). -/
def windowSizeOfFps (f : ℚ) : ℤ := max 5 (min 30 (pyInt f))

/-- `_get_person_threshold` as a function of the FPS, with the window
size in sync: `max(3, min(int(5 * fps / 10), N - 1))`. -/
def personThresholdOfFps (f : ℚ) : ℤ :=
  max 3 (min (pyInt (5 * f / 10)) (windowSizeOfFps f - 1))

/-- `_get_no_person_threshold` as a function of the FPS:
`max(5, min(int(7 * fps / 10), N - 1))`. -/
def noPersonThresholdOfFps (f : ℚ) : ℤ :=
  max 5 (min (pyInt (7 * f / 10)) (windowSizeOfFps f - 1))

/-- `FacialRecognitionService._update_fps` at wall-clock time `now`. -/
def updateFps (s : ServiceState) (now : ℚ) : ServiceState :=
  let ts0 := s.frame_timestamps ++ [now]
  let ts := if ts0.length > fpsWindowSize then ts0.tail else ts0
  let fps := fpsFromTimestamps ts
  { s with frame_timestamps := ts, current_fps := fps,
           history_size := (max 5 (min 30 (pyInt fps))).toNat }

/-- `FacialRecognitionService.update_frame_history`. -/
def updateFrameHistory (s : ServiceState) (pid : Option String) (now : ℚ) :
    ServiceState :=
  let s1 := updateFps s now
  let h0 := s1.frame_history ++ [pid]
  let h := if h0.length > s1.history_size then h0.tail else h0
  { s1 with frame_history := h }

/-- `_get_person_threshold` on the live state. -/
def personThreshold (s : ServiceState) : ℤ :=
  max 3 (min (pyInt (5 * s.current_fps / 10)) ((s.history_size : ℤ) - 1))

/-- `_get_no_person_threshold` on the live state. -/
def noPersonThreshold (s : ServiceState) : ℤ :=
  max 5 (min (pyInt (7 * s.current_fps / 10)) ((s.history_size : ℤ) - 1))

/-- `sum(1 for p in frame_history if p is None)`. -/
def countNone (h : List (Option String)) : ℕ := h.countP fun p => p.isNone

/-- `FacialRecognitionService.should_switch_to_no_person`. -/
def shouldSwitchToNoPerson (s : ServiceState) : Bool :=
  let threshold := noPersonThreshold s
  if (s.frame_history.length : ℤ) < threshold then false
  else decide ((countNone s.frame_history : ℤ) ≥ threshold)

/-- `FacialRecognitionService.should_switch_to_different_person`. -/
def shouldSwitchToDifferentPerson (s : ServiceState) (newPid : Option String) :
    Bool :=
  match newPid with
  | none => false
  | some pid =>
      let threshold := personThreshold s
      if (s.frame_history.length : ℤ) < threshold then false
      else decide ((s.frame_history.countP (fun p => p == some pid) : ℤ) ≥ threshold)

/-- The switching part of `FacialRecognitionService.process_frame`
(everything after `recognize_person`): update the frame history, then
run the three-way switch check.  Returns `((person_id, switch_detected),
new state, ids whose session average is persisted before the switch)`.
The branch guarded by `current_person_id is None and person_id is not
None` inside the `elif person_id is not None` arm is kept although its
guard can never hold there (it is reached only when
`current_person_id == person_id`). -/
def processRecognizedFrame (s : ServiceState) (pid : Option String) (now : ℚ) :
    (Option String × Bool) × ServiceState × List String :=
  let s1 := updateFrameHistory s pid now
  if s.current_person_id ≠ none ∧ pid = none then
    if shouldSwitchToNoPerson s1 then
      ((none, true), { s1 with current_person_id := none },
        s.current_person_id.toList)
    else ((s.current_person_id, false), s1, [])
  else
    match pid with
    | some p =>
        if s.current_person_id ≠ some p then
          if shouldSwitchToDifferentPerson s1 (some p) then
            ((some p, true), { s1 with current_person_id := some p },
              s.current_person_id.toList)
          else ((s.current_person_id, false), s1, [])
        else if s.current_person_id = none ∧ (some p : Option String) ≠ none then
          if shouldSwitchToDifferentPerson s1 (some p) then
            ((some p, true), { s1 with current_person_id := some p }, [])
          else ((s.current_person_id, false), s1, [])
        else ((s.current_person_id, false), s1, [])
    | none => ((s.current_person_id, false), s1, [])

/-- `FacialRecognitionService.process_frame`: recognize, then switch.
Failure semantics of the source: an empty image returns
`(current_person_id, False)` untouched; every exception inside
`recognize_person` is caught there (an extraction failure becomes an
embedding of `none`), and the catch-all wrappers return
`(current_person_id, False)`. -/
noncomputable def processFrame (extract : List ℕ → Option (List ℝ))
    (db : List (String × List ℝ)) (freshId : String)
    (s : ServiceState) (image : List ℕ) (now : ℚ) :
    (Option String × Bool) × ServiceState × List FaceWrite :=
  if image.length = 0 then ((s.current_person_id, false), s, [])
  else
    let rec1 := recognizePerson extract db freshId s.embedding_averages image
    let s1 := { s with embedding_averages := rec1.2.1 }
    let out := processRecognizedFrame s1 rec1.1 now
    (out.1, out.2.1,
      rec1.2.2 ++ out.2.2.foldr (fun p acc => saveAveragedEmbedding rec1.2.1 p ++ acc) [])

/-- Feed a list of `(recognized person, wall-clock time)` observations
through the switching logic. -/
def runRecognizedFrames (s : ServiceState) :
    List (Option String × ℚ) → ServiceState
  | [] => s
  | (pid, t) :: rest =>
      runRecognizedFrames (processRecognizedFrame s pid t).2.1 rest

/-! ## Database layer (speech/conversation/database.py) and the recap
path of the summarizer (speech/conversation/summarizer.py) -/

/-- The methods `class DatabaseManager` defines (database.py). -/
def databaseManagerMethods : List String :=
  ["__init__", "_initialize_pool", "_get_connection", "_return_connection",
   "initialize_schema", "add_memory", "get_memories_for_person",
   "get_all_memories", "add_todo", "get_todos", "update_todo_status",
   "get_todo_by_id", "get_person_name", "get_face_by_person_id",
   "create_or_update_face", "person_exists", "add_summary",
   "get_latest_summary", "close"]

/-- Python attribute access `database_manager.<name>`: raises
`AttributeError` when the class defines no such method. -/
def dbmAttr (name : String) : Except Unit Unit :=
  if databaseManagerMethods.contains name then .ok () else .error ()

/-- The `"Summary {i+1}:\n{summary}"` blocks joined with blank lines
(`generate_recap_from_summaries`, lines 301–304). -/
def buildSummariesText (summaries : List String) : String :=
  String.intercalate "\n\n"
    ((summaries.enum).map fun p =>
      "Summary " ++ toString (p.1 + 1) ++ ":\n" ++ p.2)

/-- `ConversationSummarizer.generate_recap_from_summaries`.

`summariesOracle` stands for the summaries the store holds for the
person (most-recent-first, the intended result of the attribute the code
asks for); `llm` is the pooled LLM call `_generate_recap_sync` under its
30-second timeout, with `.error` covering both `FutureTimeoutError` and
any other failure (markdown clean-up of the reply is folded into the
oracle since the branch below is unreachable).

The body first evaluates `self.database_manager.get_all_summaries(...)`;
`DatabaseManager` defines no method of that name, so the attribute
access raises `AttributeError`, which the blanket
`except Exception` turns into `None`. -/
def generateRecapFromSummaries (hasDb : Bool)
    (summariesOracle : String → List String)
    (llm : String → Except Unit String) (personId : String) : Option String :=
  if hasDb = false then none
  else
    match dbmAttr "get_all_summaries" with
    | .error _ => none
    | .ok _ =>
        let summaries := summariesOracle personId
        if summaries = [] then none
        else
          match llm (buildSummariesText summaries) with
          | .ok recap => some recap
          | .error _ => none

/-- Python `str.strip()`: drop ASCII whitespace from both ends
(structural model over the character list, so that it evaluates). -/
def pyStrip (s : String) : String :=
  ⟨((s.data.dropWhile Char.isWhitespace).reverse.dropWhile
      Char.isWhitespace).reverse⟩

/-! ## Conversation state (speech/conversation/state.py) -/

/-- `Message` (state.py): timestamps are modelled as rationals. -/
structure Msg where
  role : String
  content : String
  timestamp : ℚ
  person_id : Option String
  deriving DecidableEq, Repr

/-- One recorded tool call (`ConversationState.add_tool_call` appends a
dict with tool name, args, result and timestamp; args are kept opaque as
a rendered string). -/
structure ToolCallRec where
  tool : String
  args : String
  result : String
  timestamp : ℚ
  deriving DecidableEq, Repr

/-- `ConversationState` (state.py); the unused free-form `metadata` dict
is omitted. -/
structure ConvState where
  messages : List Msg
  last_speech_time : Option ℚ
  conversation_id : String
  tool_calls : List ToolCallRec
  current_person_id : Option String
  person_present : Option Bool
  deriving DecidableEq, Repr

/-- `ConversationState.add_message`. -/
def addMessage (st : ConvState) (role content : String)
    (personId : Option String) (now : ℚ) : ConvState :=
  { st with
    messages := st.messages ++ [⟨role, content, now, personId⟩],
    last_speech_time := if role = "user" then some now else st.last_speech_time }

/-- `ConversationState.add_tool_call` (`result` is always the literal
`"executed"` at the call site in the agent). -/
def addToolCall (st : ConvState) (tool args : String) (now : ℚ) : ConvState :=
  { st with tool_calls := st.tool_calls ++ [⟨tool, args, "executed", now⟩] }

/-! ## Agent (speech/conversation/agent.py) -/

/-- The sentinel the agent returns when the reply must be suppressed. -/
def noFurtherResponse : String := "[NO FURTHER RESPONSE]"

/-- One message of the LangGraph response list: whether it is an
`AIMessage`, its `content`, and its `tool_calls` (name and rendered
args). -/
structure RespMsg where
  isAI : Bool
  content : String
  toolCalls : List (String × String)
  deriving DecidableEq, Repr

/-- `tool_was_called`: some response message carries tool calls. -/
def toolWasCalled (msgs : List RespMsg) : Bool :=
  msgs.any fun m => m.toolCalls ≠ []

/-- Record every tool call of the response into the conversation state,
in order (`conversation_state.add_tool_call(...)` in the first loop of
`process_utterance`). -/
def recordToolCalls (st : ConvState) (msgs : List RespMsg) (now : ℚ) : ConvState :=
  msgs.foldl
    (fun acc m => m.toolCalls.foldl (fun a tc => addToolCall a tc.1 tc.2 now) acc)
    st

/-- The final agent response `process_utterance` extracts: the content of
the last `AIMessage` with truthy content; if none exists,
`str(last_msg)` of the last response message (`render`), and `""` only
if that message itself is falsy (objects never are). -/
def agentReplyText (render : RespMsg → String) (msgs : List RespMsg) : String :=
  match msgs.reverse.find? (fun m => m.isAI ∧ m.content ≠ "") with
  | some m => m.content
  | none => match msgs.getLast? with
            | some lastMsg => render lastMsg
            | none => ""

/-- `ConversationAgent.process_utterance` after the user message was
added by the orchestrator.  `invokeResult` is the LangGraph/LLM
round-trip (`.error` = the call raised; the `except` arm returns the
sentinel).  On an empty response list the `response["messages"][-1]`
index raises and the same arm applies.  Returns the reply string and the
state with the recorded tool calls. -/
def processUtterance (render : RespMsg → String)
    (invokeResult : Except Unit (List RespMsg)) (st : ConvState) (now : ℚ) :
    String × ConvState :=
  match invokeResult with
  | .error _ => (noFurtherResponse, st)
  | .ok msgs =>
      if msgs = [] then (noFurtherResponse, st)
      else
        let st1 := recordToolCalls st msgs now
        if toolWasCalled msgs then (noFurtherResponse, st1)
        else
          let reply := agentReplyText render msgs
          if pyStrip reply ≠ "" then (reply, st1) else (noFurtherResponse, st1)

/-! ## Orchestrator (speech/conversation/orchestrator.py) -/

/-- `ConversationOrchestrator._handle_turn_complete`: append the user
message (tagged with the current person), run the agent, and append the
reply as an assistant message unless it is the sentinel. -/
def handleTurnComplete (render : RespMsg → String)
    (invokeResult : Except Unit (List RespMsg)) (utterance : String)
    (now : ℚ) (st : ConvState) : ConvState × Option String :=
  if utterance = "" ∨ pyStrip utterance = "" then (st, none)
  else
    let st1 := addMessage st "user" utterance st.current_person_id now
    let out := processUtterance render invokeResult st1 now
    if out.1 ≠ noFurtherResponse then
      (addMessage out.2 "assistant" out.1 none now, some out.1)
    else (out.2, some out.1)

/-- Orchestrator fields involved in a person switch. -/
structure OrchState where
  conv : ConvState
  previous_person_id : Option String
  deriving DecidableEq, Repr

/-- Side effects of `_handle_person_switch` (observed, not state):
the detached summary task that was spawned, and the
`on_person_switch` notification. -/
structure SwitchFx where
  spawnedSummaryFor : Option (String × List Msg)
  notified : Option (Option String × Option String × Option String)
  deriving DecidableEq, Repr

/-- `ConversationOrchestrator._handle_person_switch`.

`hasDb`: whether a database manager is available; `getName` models
`get_person_name`; `personExists` models `person_exists`; `freshId` is
the `uuid4` draw for the new conversation id; the recap handed to the
notification is `generate_recap_from_summaries`, which always yields
`none` (see `generateRecapFromSummaries`), here folded to `none`.

Mirrors the source order: spawn the background summary for the previous
person when they have messages; clear `messages` and `tool_calls` — but
only inside the `if message_count_before > 0` guard; set
`_previous_person_id`; `return` early when the new person is `None`
(before any new conversation id is drawn); otherwise draw the fresh
conversation id and notify. -/
def handlePersonSwitch (hasDb : Bool) (getName : String → Option String)
    (personExists : String → Bool) (freshId : String)
    (st : OrchState) (personId : Option String) : OrchState × SwitchFx :=
  let spawned : Option (String × List Msg) :=
    match st.previous_person_id with
    | some prev =>
        if hasDb then
          let prevMessages := st.conv.messages.filter
            fun m => m.person_id = some prev
          if prevMessages ≠ [] then some (prev, prevMessages) else none
        else none
    | none => none
  let conv1 :=
    if st.conv.messages.length > 0 then
      { st.conv with messages := [], tool_calls := [] }
    else st.conv
  let st1 : OrchState := { conv := conv1, previous_person_id := personId }
  match personId with
  | none => (st1, ⟨spawned, none⟩)
  | some p =>
      let pExists := hasDb ∧ personExists p
      let pName : Option String :=
        if hasDb then some ((getName p).getD p) else none
      let recap : Option String := none
      let _ := pExists
      let conv2 := { conv1 with conversation_id := freshId }
      ({ conv := conv2, previous_person_id := personId },
        ⟨spawned, some (some p, pName, recap)⟩)

/-! # Theorems -/

/-! ## C1 — the recap path -/

/-- C1: the recap synthesized on a person switch.  The claim says the
recap is built by feeding all prior summaries for the incoming person
into the LLM (thread pool, 30-second timeout), with `None` on failure.
In the code `generate_recap_from_summaries` first evaluates
`self.database_manager.get_all_summaries(person_id)`, but
`DatabaseManager` defines no method `get_all_summaries`, so the lookup
raises `AttributeError`, the blanket handler catches it, and the recap is
`None` on every input — summaries are never read and the LLM is never
called on this path. -/
theorem C1_recap_always_none :
    databaseManagerMethods.contains "get_all_summaries" = false ∧
    ∀ (hasDb : Bool) (summariesOracle : String → List String)
      (llm : String → Except Unit String) (personId : String),
      generateRecapFromSummaries hasDb summariesOracle llm personId = none := by
  have hc : databaseManagerMethods.contains "get_all_summaries" = false := by decide
  refine ⟨hc, ?_⟩
  intro hasDb so llm p
  cases hasDb with
  | false => rfl
  | true =>
      have hmem : "get_all_summaries" ∉ databaseManagerMethods := by decide
      have h : dbmAttr "get_all_summaries" = .error () := by
        simp [dbmAttr, hmem]
      simp [generateRecapFromSummaries, h]

/-! ## C2 — the recognition queue -/

/-- C2, counterexample: with the queue full (`[1, 2]`, capacity 2), an
arriving frame `3` is itself dropped (`except queue.Full` skips it) and
the queue keeps its old contents — it is not the oldest frame that is
discarded, contrary to the claimed drop-oldest-on-full semantics, which
would leave the queue as `[2, 3]`. -/
theorem C2_counterexample :
    enqueueFrame [1, 2] 3 = ([1, 2], true) ∧
    dropOldestEnqueue [1, 2] 3 = [2, 3] ∧
    (enqueueFrame [1, 2] 3).1 ≠ dropOldestEnqueue [1, 2] 3 := by
  decide

/-- C2, amended: the queue is bounded at capacity 2 and the producer is
never blocked, but the drop policy is drop-newest: any interleaving of
enqueues and takes keeps the depth at most 2, an enqueue below capacity
appends the frame without dropping, and an enqueue at capacity returns
immediately, dropping the arriving frame and leaving the queue
unchanged. -/
theorem C2_bounded_drop_newest :
    (∀ ops : List QueueOp, (runFrameQueue ops).length ≤ frameQueueCapacity) ∧
    (∀ (q : FrameQueue) (f : ℕ), q.length < frameQueueCapacity →
      enqueueFrame q f = (q ++ [f], false)) ∧
    (∀ (q : FrameQueue) (f : ℕ), frameQueueCapacity ≤ q.length →
      enqueueFrame q f = (q, true)) := by
  refine ⟨runFrameQueue_length_le, ?_, ?_⟩
  · intro q f h
    simp [enqueueFrame, h]
  · intro q f h
    have h2 : ¬ q.length < frameQueueCapacity := by omega
    simp [enqueueFrame, h2]

/-- Witness for `C2_bounded_drop_newest` at concrete inputs. -/
theorem C2_bounded_drop_newest_witness :
    (runFrameQueue [.put 7, .put 8, .put 9]).length ≤ frameQueueCapacity ∧
    enqueueFrame [4] 5 = ([4, 5], false) ∧
    enqueueFrame [4, 5] 6 = ([4, 5], true) :=
  ⟨C2_bounded_drop_newest.1 _,
   C2_bounded_drop_newest.2.1 [4] 5 (by decide),
   C2_bounded_drop_newest.2.2 [4, 5] 6 (by decide)⟩

/-! ## C3 — consecutive ingest errors -/

/-- Splitting a run of the ingest bookkeeping at a list append. -/
theorem runIngest_append (xs ys : List IngestEvent) (ce : ℕ) :
    runIngest ce (xs ++ ys) =
      if (runIngest ce xs).1 = true then runIngest (runIngest ce xs).2 ys
      else runIngest ce xs := by
  induction xs generalizing ce with
  | nil => simp [runIngest]
  | cons e rest ih =>
      cases e with
      | err =>
          by_cases h : ce + 1 ≥ maxConsecutiveErrors
          · simp [runIngest, h]
          · simp only [List.cons_append, runIngest, if_neg h]
            exact ih (ce + 1)
      | ok =>
          simp only [List.cons_append, runIngest]
          exact ih 0

/-- A run of at least `10 - ce` leading errors kills the loop. -/
theorem runIngest_dead_of_err_run (k : ℕ) :
    ∀ (ce : ℕ) (rest : List IngestEvent), 1 ≤ k →
      maxConsecutiveErrors ≤ ce + k →
      (runIngest ce (List.replicate k .err ++ rest)).1 = false := by
  induction k with
  | zero => intro ce rest h1 _; omega
  | succ n ih =>
      intro ce rest _ h2
      by_cases h : ce + 1 ≥ maxConsecutiveErrors
      · simp [List.replicate_succ, runIngest, h]
      · simp only [List.replicate_succ, List.cons_append, runIngest, if_neg h]
        have hn : 1 ≤ n := by
          by_contra hc
          have : n = 0 := by omega
          subst this
          omega
        exact ih (ce + 1) rest hn (by omega)

/-- If the loop dies, the events begin (after a shift) with ten
consecutive errors, or an error prefix long enough to finish an
already-started run. -/
theorem runIngest_dead_window (evs : List IngestEvent) :
    ∀ ce : ℕ, (runIngest ce evs).1 = false →
      (∃ n, n ≤ evs.length ∧ evs.take n = List.replicate n .err ∧
        maxConsecutiveErrors ≤ ce + n) ∨
      (∃ i, (evs.drop i).take maxConsecutiveErrors =
        List.replicate maxConsecutiveErrors .err) := by
  induction evs with
  | nil => intro ce h; simp [runIngest] at h
  | cons e rest ih =>
      intro ce h
      cases e with
      | err =>
          by_cases hc : ce + 1 ≥ maxConsecutiveErrors
          · left
            exact ⟨1, by simp, by simp [List.replicate], by omega⟩
          · simp only [runIngest, if_neg hc] at h
            rcases ih (ce + 1) h with ⟨n, hn, htake, hge⟩ | ⟨i, hi⟩
            · left
              refine ⟨n + 1, by simpa using hn, ?_, by omega⟩
              simp [List.replicate_succ, List.take_succ_cons, htake]
            · right
              exact ⟨i + 1, by simpa using hi⟩
      | ok =>
          simp only [runIngest] at h
          rcases ih 0 h with ⟨n, hn, htake, hge⟩ | ⟨i, hi⟩
          · right
            refine ⟨1, ?_⟩
            simp only [List.drop_succ_cons, List.drop_zero]
            have : rest.take maxConsecutiveErrors =
                (rest.take n).take maxConsecutiveErrors := by
              rw [List.take_take]
              congr 1
              omega
            rw [this, htake, List.take_replicate]
            congr 1
            omega
          · right
            exact ⟨i + 1, by simpa using hi⟩

/-- C3, counterexample: starting fresh, the ingest loop survives nine
consecutive framing/read errors but terminates on the tenth consecutive
error — not on an eleventh, as claimed. -/
theorem C3_counterexample :
    ingestAlive (List.replicate 9 .err) = true ∧
    ingestAlive (List.replicate 10 .err) = false := by
  decide

/-- C3, amended: the loop tolerates up to nine consecutive framing/read
errors (it is still alive after any `k ≤ 9` of them) and terminates
exactly when ten consecutive errors occur with no successful frame
between them; a successfully read frame resets the consecutive-error
count to zero. -/
theorem C3_error_tolerance :
    (∀ k : ℕ, k < maxConsecutiveErrors →
      ingestAlive (List.replicate k .err) = true) ∧
    (∀ (ce : ℕ) (rest : List IngestEvent),
      runIngest ce (.ok :: rest) = runIngest 0 rest) ∧
    (∀ evs : List IngestEvent, ingestAlive evs = false ↔
      ∃ i, (evs.drop i).take maxConsecutiveErrors =
        List.replicate maxConsecutiveErrors .err) := by
  have hmax : maxConsecutiveErrors = 10 := rfl
  refine ⟨?_, fun ce rest => rfl, ?_⟩
  · intro k hk
    by_contra hdead
    have hdead2 : (runIngest 0 (List.replicate k .err)).1 = false := by
      cases hh : (runIngest 0 (List.replicate k .err)).1 with
      | false => rfl
      | true => exact absurd hh hdead
    rcases runIngest_dead_window _ 0 hdead2 with ⟨n, hn, _, hge⟩ | ⟨i, hi⟩
    · simp at hn
      omega
    · have hlen := congrArg List.length hi
      simp [maxConsecutiveErrors] at hlen
      omega
  · intro evs
    constructor
    · intro h
      rcases runIngest_dead_window evs 0 h with ⟨n, hn, htake, hge⟩ | hw
      · refine ⟨0, ?_⟩
        simp only [List.drop_zero]
        have : evs.take maxConsecutiveErrors =
            (evs.take n).take maxConsecutiveErrors := by
          rw [List.take_take]
          congr 1
          omega
        rw [this, htake, List.take_replicate]
        congr 1
        omega
      · exact hw
    · rintro ⟨i, hi⟩
      have hsplit : evs = evs.take i ++ evs.drop i := (List.take_append_drop i evs).symm
      have hsplit2 : evs.drop i =
          List.replicate maxConsecutiveErrors .err ++
            (evs.drop i).drop maxConsecutiveErrors := by
        conv_lhs => rw [← List.take_append_drop maxConsecutiveErrors (evs.drop i)]
        rw [hi]
      unfold ingestAlive
      rw [hsplit, runIngest_append]
      split
      · rw [hsplit2]
        exact runIngest_dead_of_err_run maxConsecutiveErrors _ _ (by omega)
          (Nat.le_add_left _ _)
      · rename_i hfalse
        simpa using hfalse

/-- Witness for `C3_error_tolerance` at concrete inputs. -/
theorem C3_error_tolerance_witness :
    ingestAlive (List.replicate 4 .err) = true ∧
    ingestAlive [.err, .ok, .err] = false ∨
    ingestAlive (List.replicate 10 .err) = false :=
  Or.inr ((C3_error_tolerance.2.2 _).mpr ⟨0, by decide⟩)

/-! ## C4 — person-switch handling of the conversation state -/

/-- C4, counterexample: a `SwitchEvent` to `None` (person lost).  The
handler clears the history but returns before drawing a new conversation
id: the conversation id stays `"conv0"`, not a fresh id distinct from
the previous one as the claim requires for every event including
`to = None`. -/
theorem C4_counterexample :
    (handlePersonSwitch false (fun _ => none) (fun _ => false) "fresh-uuid"
        ⟨⟨[⟨"user", "hi", 0, some "p0"⟩], some 0, "conv0", [], some "p0", some true⟩,
          some "p0"⟩ none).1.conv.conversation_id = "conv0" ∧
    "conv0" ≠ "fresh-uuid" := by
  constructor
  · rfl
  · decide

/-- C4, amended: on every `SwitchEvent` the handler clears all Messages
and all tool-call records provided at least one Message exists (with an
already-empty message list nothing is cleared, so tool-call records
survive); a fresh `conversation_id` is adopted only when `to ≠ None`,
and on `to = None` the old conversation id is kept. -/
theorem C4_clear_and_conversation_id (hasDb : Bool)
    (getName : String → Option String) (personExists : String → Bool)
    (freshId : String) (st : OrchState) (personId : Option String) :
    (st.conv.messages ≠ [] →
      (handlePersonSwitch hasDb getName personExists freshId st personId).1.conv.messages = [] ∧
      (handlePersonSwitch hasDb getName personExists freshId st personId).1.conv.tool_calls = []) ∧
    (st.conv.messages = [] →
      (handlePersonSwitch hasDb getName personExists freshId st personId).1.conv.messages = [] ∧
      (handlePersonSwitch hasDb getName personExists freshId st personId).1.conv.tool_calls
        = st.conv.tool_calls) ∧
    (personId ≠ none →
      (handlePersonSwitch hasDb getName personExists freshId st personId).1.conv.conversation_id
        = freshId) ∧
    (personId = none →
      (handlePersonSwitch hasDb getName personExists freshId st personId).1.conv.conversation_id
        = st.conv.conversation_id) := by
  cases personId with
  | none =>
      by_cases hm : st.conv.messages = []
      · refine ⟨fun h => absurd hm h, fun _ => ⟨?_, ?_⟩, fun h => absurd rfl h, fun _ => ?_⟩ <;>
          simp [handlePersonSwitch, hm]
      · have hl : st.conv.messages.length > 0 := by
          cases h : st.conv.messages with
          | nil => exact absurd h hm
          | cons a t => simp [h]
        refine ⟨fun _ => ⟨?_, ?_⟩, fun h => absurd h hm, fun h => absurd rfl h, fun _ => ?_⟩ <;>
          simp [handlePersonSwitch, hl]
  | some p =>
      by_cases hm : st.conv.messages = []
      · refine ⟨fun h => absurd hm h, fun _ => ⟨?_, ?_⟩, fun _ => ?_, fun h => by cases h⟩ <;>
          simp [handlePersonSwitch, hm]
      · have hl : st.conv.messages.length > 0 := by
          cases h : st.conv.messages with
          | nil => exact absurd h hm
          | cons a t => simp [h]
        refine ⟨fun _ => ⟨?_, ?_⟩, fun h => absurd h hm, fun _ => ?_, fun h => by cases h⟩ <;>
          simp [handlePersonSwitch, hl]

/-- Witness for `C4_clear_and_conversation_id` at concrete inputs. -/
theorem C4_clear_and_conversation_id_witness :
    (handlePersonSwitch true (fun _ => none) (fun _ => true) "uuid-1"
        ⟨⟨[⟨"user", "hey", 2, some "pA"⟩], some 2, "conv-A", [], some "pA", some true⟩,
          some "pA"⟩ (some "pB")).1.conv.messages = [] ∧
    (handlePersonSwitch true (fun _ => none) (fun _ => true) "uuid-1"
        ⟨⟨[⟨"user", "hey", 2, some "pA"⟩], some 2, "conv-A", [], some "pA", some true⟩,
          some "pA"⟩ (some "pB")).1.conv.conversation_id = "uuid-1" :=
  ⟨((C4_clear_and_conversation_id true (fun _ => none) (fun _ => true) "uuid-1"
      ⟨⟨[⟨"user", "hey", 2, some "pA"⟩], some 2, "conv-A", [], some "pA", some true⟩,
        some "pA"⟩ (some "pB")).1 (by decide)).1,
   (C4_clear_and_conversation_id true (fun _ => none) (fun _ => true) "uuid-1"
      ⟨⟨[⟨"user", "hey", 2, some "pA"⟩], some 2, "conv-A", [], some "pA", some true⟩,
        some "pA"⟩ (some "pB")).2.2.1 (by decide)⟩

/-! ## C6 — FPS-adaptive window and thresholds -/

/-- C6, counterexample: at an estimated FPS of `5` the window size is
`N = 5` while the no-person threshold is `max(5, min(⌊3.5⌋, 4)) = 5`,
which exceeds `N − 1 = 4` — refuting the claim that each threshold never
exceeds `N − 1`. -/
theorem C6_counterexample :
    noPersonThresholdOfFps 5 = 5 ∧ windowSizeOfFps 5 = 5 ∧
    ¬ noPersonThresholdOfFps 5 ≤ windowSizeOfFps 5 - 1 := by
  have h5 : pyInt (5 : ℚ) = 5 := by
    rw [pyInt_of_nonneg _ (by norm_num),
      show (5 : ℚ) = ((5 : ℤ) : ℚ) by norm_num, Int.floor_intCast]
  have h35 : pyInt (7 * 5 / 10 : ℚ) = 3 := by
    rw [pyInt_of_nonneg _ (by norm_num), Int.floor_eq_iff]
    constructor <;> norm_num
  unfold noPersonThresholdOfFps windowSizeOfFps
  rw [h5, h35]
  omega

/-- C6, amended: for an estimated FPS `f ≥ 1` the window size is
`N = max(5, min(30, ⌊f⌋))` and the vote thresholds are
`T_to_person = max(3, min(⌊5f/10⌋, N−1))` and
`T_to_absent = max(5, min(⌊7f/10⌋, N−1))` (these are the formulas the
live state computes once `_update_fps` has run); `f` defaults to `10`
when fewer than two timestamp samples exist.  `T_to_person` never
exceeds `N − 1`, and `T_to_absent` never exceeds `N − 1` when `f ≥ 6`,
but equals `5 = N` (exceeding `N − 1 = 4`) whenever `f < 6`. -/
theorem C6_window_and_thresholds (f : ℚ) (hf : 1 ≤ f) :
    windowSizeOfFps f = max 5 (min 30 ⌊f⌋) ∧
    personThresholdOfFps f ≤ windowSizeOfFps f - 1 ∧
    (6 ≤ f → noPersonThresholdOfFps f ≤ windowSizeOfFps f - 1) ∧
    (f < 6 → windowSizeOfFps f = 5 ∧ noPersonThresholdOfFps f = 5) ∧
    (∀ ts : List ℚ, ts.length < 2 → fpsFromTimestamps ts = 10) ∧
    (∀ (s : ServiceState) (now : ℚ),
      (updateFps s now).history_size =
        (windowSizeOfFps (updateFps s now).current_fps).toNat) ∧
    (∀ s : ServiceState,
      s.current_fps = f → s.history_size = (windowSizeOfFps f).toNat →
      personThreshold s = personThresholdOfFps f ∧
      noPersonThreshold s = noPersonThresholdOfFps f) := by
  have hf0 : (0 : ℚ) ≤ f := by linarith
  have hpy : pyInt f = ⌊f⌋ := pyInt_of_nonneg f hf0
  have hN5 : (5 : ℤ) ≤ windowSizeOfFps f := le_max_left _ _
  refine ⟨by rw [windowSizeOfFps, hpy], ?_, ?_, ?_, ?_, ?_, ?_⟩
  · have h1 : min (pyInt (5 * f / 10)) (windowSizeOfFps f - 1) ≤
        windowSizeOfFps f - 1 := min_le_right _ _
    unfold personThresholdOfFps
    omega
  · intro h6
    have hfl : (6 : ℤ) ≤ ⌊f⌋ := by
      rw [Int.le_floor]
      exact_mod_cast h6
    have hN6 : (6 : ℤ) ≤ windowSizeOfFps f := by
      unfold windowSizeOfFps
      rw [hpy]
      omega
    have h1 : min (pyInt (7 * f / 10)) (windowSizeOfFps f - 1) ≤
        windowSizeOfFps f - 1 := min_le_right _ _
    unfold noPersonThresholdOfFps
    omega
  · intro h6
    have hfl1 : (1 : ℤ) ≤ ⌊f⌋ := by
      rw [Int.le_floor]
      exact_mod_cast hf
    have hfl6 : ⌊f⌋ < 6 := by
      rw [Int.floor_lt]
      exact_mod_cast h6
    have hw : windowSizeOfFps f = 5 := by
      unfold windowSizeOfFps
      rw [hpy]
      omega
    refine ⟨hw, ?_⟩
    have h70 : (0 : ℚ) ≤ 7 * f / 10 := by positivity
    have hb : pyInt (7 * f / 10) = ⌊7 * f / 10⌋ := pyInt_of_nonneg _ h70
    have hb4 : ⌊7 * f / 10⌋ ≤ 4 := by
      have : (7 : ℚ) * f / 10 < 5 := by linarith
      have h5 : ⌊7 * f / 10⌋ < 5 := by
        rw [Int.floor_lt]
        exact_mod_cast this
      omega
    unfold noPersonThresholdOfFps
    rw [hb, hw]
    omega
  · intro ts hlen
    unfold fpsFromTimestamps
    have : ¬ 2 ≤ ts.length := by omega
    simp [this]
  · intro s now
    rfl
  · intro s hfps hsize
    constructor
    · unfold personThreshold personThresholdOfFps
      rw [hfps, hsize, Int.toNat_of_nonneg (by omega)]
    · unfold noPersonThreshold noPersonThresholdOfFps
      rw [hfps, hsize, Int.toNat_of_nonneg (by omega)]

/-- Witness for `C6_window_and_thresholds` at `f = 10`. -/
theorem C6_window_and_thresholds_witness :
    windowSizeOfFps 10 = max 5 (min 30 ⌊(10 : ℚ)⌋) ∧
    personThresholdOfFps 10 ≤ windowSizeOfFps 10 - 1 :=
  ⟨(C6_window_and_thresholds 10 (by norm_num)).1,
   (C6_window_and_thresholds 10 (by norm_num)).2.1⟩

/-! ## C7 — hysteresis asymmetry -/

/-- `update_frame_history` never touches the committed person. -/
theorem updateFrameHistory_current (s : ServiceState) (pid : Option String)
    (now : ℚ) :
    (updateFrameHistory s pid now).current_person_id = s.current_person_id := rfl

/-- Dropping the head cannot increase a `countP`. -/
theorem countP_tail_le (l : List (Option String)) (q : Option String → Bool) :
    l.tail.countP q ≤ l.countP q := by
  cases l with
  | nil => simp
  | cons a t =>
      simp only [List.tail_cons, List.countP_cons]
      split <;> omega

/-- Dropping the head cannot increase the `None` count. -/
theorem countNone_tail_le (l : List (Option String)) :
    countNone l.tail ≤ countNone l :=
  countP_tail_le l _

/-- Appending an observation of a person does not change the `None`
count of the window. -/
theorem countNone_append_some (h : List (Option String)) (p : String) :
    countNone (h ++ [some p]) = countNone h := by
  simp [countNone, List.countP_append]

/-- Appending a `None` observation raises the `None` count by one. -/
theorem countNone_append_none (h : List (Option String)) :
    countNone (h ++ [none]) = countNone h + 1 := by
  simp [countNone, List.countP_append]

/-- After recording a frame of person `p`, the window's `None` count has
not grown. -/
theorem countNone_update_some_le (s : ServiceState) (p : String) (now : ℚ) :
    countNone (updateFrameHistory s (some p) now).frame_history ≤
      countNone s.frame_history := by
  have hbase : (updateFps s now).frame_history = s.frame_history := rfl
  unfold updateFrameHistory
  dsimp only
  split
  · calc countNone ((updateFps s now).frame_history ++ [some p]).tail
          ≤ countNone ((updateFps s now).frame_history ++ [some p]) :=
        countNone_tail_le _
      _ = countNone s.frame_history := by
        rw [hbase]; exact countNone_append_some _ _
  · rw [show countNone ((updateFps s now).frame_history ++ [some p]) =
        countNone s.frame_history from by rw [hbase]; exact countNone_append_some _ _]

/-- After recording a `None` frame on a window that held no `None`, the
window holds at most one `None`. -/
theorem countNone_update_none_le_one (s : ServiceState) (now : ℚ)
    (h : countNone s.frame_history = 0) :
    countNone (updateFrameHistory s none now).frame_history ≤ 1 := by
  have hbase : (updateFps s now).frame_history = s.frame_history := rfl
  have happ : countNone ((updateFps s now).frame_history ++ [none]) = 1 := by
    rw [hbase, countNone_append_none, h]
  unfold updateFrameHistory
  dsimp only
  split
  · calc countNone ((updateFps s now).frame_history ++ [none]).tail
          ≤ countNone ((updateFps s now).frame_history ++ [none]) :=
        countNone_tail_le _
      _ ≤ 1 := le_of_eq happ
  · exact le_of_eq happ

/-- The absence vote never fires while the window holds at most one
`None` (the threshold is clamped to at least `5`). -/
theorem shouldSwitchToNoPerson_false (s : ServiceState)
    (h : countNone s.frame_history ≤ 1) :
    shouldSwitchToNoPerson s = false := by
  have h5 : (5 : ℤ) ≤ noPersonThreshold s := le_max_left _ _
  unfold shouldSwitchToNoPerson
  dsimp only
  split
  · rfl
  · simp only [decide_eq_false_iff_not]
    intro hge
    omega

/-- A frame of the committed person never changes anything but the
window. -/
theorem processRecognizedFrame_same (s : ServiceState) (p : String) (now : ℚ)
    (h : s.current_person_id = some p) :
    processRecognizedFrame s (some p) now =
      ((some p, false), updateFrameHistory s (some p) now, []) := by
  unfold processRecognizedFrame
  simp [h]

/-- A single `None` frame on a clean window keeps the committed person. -/
theorem processRecognizedFrame_single_none (s : ServiceState) (p : String)
    (now : ℚ) (hcur : s.current_person_id = some p)
    (hclean : countNone s.frame_history = 0) :
    processRecognizedFrame s none now =
      ((some p, false), updateFrameHistory s none now, []) := by
  have hssw : shouldSwitchToNoPerson (updateFrameHistory s none now) = false := by
    apply shouldSwitchToNoPerson_false
    have hhist : (updateFrameHistory s none now).frame_history =
        (updateFrameHistory s none now).frame_history := rfl
    exact countNone_update_none_le_one s now hclean
  unfold processRecognizedFrame
  simp [hcur, hssw]

/-- Running a run splits at an append. -/
theorem runRecognizedFrames_append (xs ys : List (Option String × ℚ))
    (s : ServiceState) :
    runRecognizedFrames s (xs ++ ys) =
      runRecognizedFrames (runRecognizedFrames s xs) ys := by
  induction xs generalizing s with
  | nil => rfl
  | cons hd tl ih =>
      obtain ⟨pid, t⟩ := hd
      simp only [List.cons_append, runRecognizedFrames]
      exact ih _

/-- A stream of the committed person keeps them committed and keeps the
window free of `None`. -/
theorem run_same_keep (l : List (Option String × ℚ)) :
    ∀ (s : ServiceState) (p : String), s.current_person_id = some p →
      countNone s.frame_history = 0 →
      (∀ x ∈ l, x.1 = some p) →
      (runRecognizedFrames s l).current_person_id = some p ∧
      countNone (runRecognizedFrames s l).frame_history = 0 := by
  induction l with
  | nil => intro s p h hc _; exact ⟨h, hc⟩
  | cons hd tl ih =>
      intro s p h hc hall
      obtain ⟨pid, t⟩ := hd
      have hpid : pid = some p := hall (pid, t) (by simp)
      subst hpid
      rw [runRecognizedFrames, processRecognizedFrame_same s p t h]
      dsimp only
      refine ih _ p ?_ ?_ ?_
      · rw [updateFrameHistory_current]; exact h
      · have := countNone_update_some_le s p t
        omega
      · intro x hx
        exact hall x (List.mem_cons_of_mem _ hx)

/-- A stream of the committed person keeps them committed (no condition
on the window). -/
theorem run_same_current (l : List (Option String × ℚ)) :
    ∀ (s : ServiceState) (p : String), s.current_person_id = some p →
      (∀ x ∈ l, x.1 = some p) →
      (runRecognizedFrames s l).current_person_id = some p := by
  induction l with
  | nil => intro s p h _; exact h
  | cons hd tl ih =>
      intro s p h hall
      obtain ⟨pid, t⟩ := hd
      have hpid : pid = some p := hall (pid, t) (by simp)
      subst hpid
      rw [runRecognizedFrames, processRecognizedFrame_same s p t h]
      dsimp only
      refine ih _ p ?_ ?_
      · rw [updateFrameHistory_current]; exact h
      · intro x hx
        exact hall x (List.mem_cons_of_mem _ hx)

/-- C7: hysteresis asymmetry.  First half: for every FPS estimate in
`[1, 30]` the absence threshold exceeds the presence threshold by at
least one.  Second half: starting from a committed person `p` with a
window free of `None`, a stream of `p` observations with a single
interposed `None` never moves the committed person away from `p`. -/
theorem C7_hysteresis_asymmetry :
    (∀ f : ℚ, 1 ≤ f → f ≤ 30 →
      personThresholdOfFps f + 1 ≤ noPersonThresholdOfFps f) ∧
    (∀ (s : ServiceState) (p : String) (pre post : List (Option String × ℚ))
      (t : ℚ),
      s.current_person_id = some p →
      countNone s.frame_history = 0 →
      (∀ x ∈ pre, x.1 = some p) →
      (∀ x ∈ post, x.1 = some p) →
      (runRecognizedFrames s (pre ++ (none, t) :: post)).current_person_id
        = some p) := by
  constructor
  · intro f h1 h30
    have hf0 : (0 : ℚ) ≤ f := by linarith
    have ha0 : (0 : ℚ) ≤ 5 * f / 10 := by positivity
    have hb0 : (0 : ℚ) ≤ 7 * f / 10 := by positivity
    unfold personThresholdOfFps noPersonThresholdOfFps windowSizeOfFps
    rw [pyInt_of_nonneg f hf0, pyInt_of_nonneg _ ha0, pyInt_of_nonneg _ hb0]
    have hnf : (⌊f⌋ : ℚ) ≤ f := Int.floor_le f
    have hnf2 : f < ⌊f⌋ + 1 := Int.lt_floor_add_one f
    have haf : (⌊5 * f / 10⌋ : ℚ) ≤ 5 * f / 10 := Int.floor_le _
    have haf2 : 5 * f / 10 < ⌊5 * f / 10⌋ + 1 := Int.lt_floor_add_one _
    have hbf : (⌊7 * f / 10⌋ : ℚ) ≤ 7 * f / 10 := Int.floor_le _
    have hbf2 : 7 * f / 10 < ⌊7 * f / 10⌋ + 1 := Int.lt_floor_add_one _
    have i1 : 2 * ⌊5 * f / 10⌋ ≤ ⌊f⌋ := by
      have hq : (2 * ⌊5 * f / 10⌋ : ℚ) < (⌊f⌋ : ℚ) + 1 := by
        linarith
      have : (2 * ⌊5 * f / 10⌋ : ℤ) < ⌊f⌋ + 1 := by exact_mod_cast hq
      omega
    have i2 : ⌊f⌋ ≤ 2 * ⌊5 * f / 10⌋ + 1 := by
      have hq : (⌊f⌋ : ℚ) < (2 * ⌊5 * f / 10⌋ : ℚ) + 2 := by
        linarith
      have : (⌊f⌋ : ℤ) < 2 * ⌊5 * f / 10⌋ + 2 := by exact_mod_cast hq
      omega
    have i3 : 10 * ⌊7 * f / 10⌋ ≤ 7 * ⌊f⌋ + 6 := by
      have hq : (10 * ⌊7 * f / 10⌋ : ℚ) < (7 * ⌊f⌋ : ℚ) + 7 := by
        linarith
      have : (10 * ⌊7 * f / 10⌋ : ℤ) < 7 * ⌊f⌋ + 7 := by exact_mod_cast hq
      omega
    have i4 : 7 * ⌊f⌋ ≤ 10 * ⌊7 * f / 10⌋ + 9 := by
      have hq : (7 * ⌊f⌋ : ℚ) < (10 * ⌊7 * f / 10⌋ : ℚ) + 10 := by
        linarith
      have : (7 * ⌊f⌋ : ℤ) < 10 * ⌊7 * f / 10⌋ + 10 := by exact_mod_cast hq
      omega
    have i5 : (1 : ℤ) ≤ ⌊f⌋ := by
      rw [Int.le_floor]
      exact_mod_cast h1
    have i6 : ⌊f⌋ ≤ 30 := by
      have hq : (⌊f⌋ : ℚ) ≤ 30 := le_trans hnf h30
      exact_mod_cast hq
    omega
  · intro s p pre post t hcur hclean hpre hpost
    rw [runRecognizedFrames_append]
    obtain ⟨hcur1, hclean1⟩ := run_same_keep pre s p hcur hclean hpre
    rw [runRecognizedFrames,
      processRecognizedFrame_single_none _ p t hcur1 hclean1]
    refine run_same_current post _ p ?_ hpost
    rw [updateFrameHistory_current]
    exact hcur1

/-- Witness for `C7_hysteresis_asymmetry` at FPS `10` and a concrete
five-frame stream with one interposed `None`. -/
theorem C7_hysteresis_asymmetry_witness :
    personThresholdOfFps 10 + 1 ≤ noPersonThresholdOfFps 10 ∧
    (runRecognizedFrames
        ⟨[some "p", some "p"], some "p", [0], 10, 10, []⟩
        [(some "p", 1), (some "p", 2), (none, 3), (some "p", 4), (some "p", 5)]
      ).current_person_id = some "p" :=
  ⟨C7_hysteresis_asymmetry.1 10 (by norm_num) (by norm_num),
   C7_hysteresis_asymmetry.2
     ⟨[some "p", some "p"], some "p", [0], 10, 10, []⟩ "p"
     [(some "p", 1), (some "p", 2)] [(some "p", 4), (some "p", 5)] 3
     rfl rfl (by simp) (by simp)⟩

/-! ## C9 — failure behaviour of `process_frame` -/

/-- `pyInt` on a natural number. -/
theorem pyInt_natCast (n : ℕ) : pyInt (n : ℚ) = (n : ℤ) := by
  rw [pyInt_of_nonneg _ (by positivity)]
  exact_mod_cast Int.floor_natCast (α := ℚ) n

/-- Whenever the switching step reports no switch, the reported id is the
committed person and the committed person is unchanged. -/
theorem processRecognizedFrame_no_switch (s : ServiceState)
    (pid : Option String) (now : ℚ) :
    (processRecognizedFrame s pid now).1.2 = false →
    (processRecognizedFrame s pid now).1.1 = s.current_person_id ∧
    (processRecognizedFrame s pid now).2.1.current_person_id
      = s.current_person_id := by
  unfold processRecognizedFrame
  dsimp only
  split
  · split
    · intro h; simp at h
    · intro _; exact ⟨rfl, rfl⟩
  · split
    · split
      · split
        · intro h; simp at h
        · intro _; exact ⟨rfl, rfl⟩
      · split
        · split
          · intro h; simp at h
          · intro _; exact ⟨rfl, rfl⟩
        · intro _; exact ⟨rfl, rfl⟩
    · intro _; exact ⟨rfl, rfl⟩

/-- C9, amended: `process_frame` is total (the embedding returns on every
input); an empty image returns `(current_person_id, False)` with the
whole state untouched, and on every path that reports no switch —
including extraction failures, which `recognize_person` converts to
`None` — the reported id is the committed person and the committed
person is unchanged.  A recognition failure on a frame is not inert,
however: it counts as a `None` observation and may legitimately commit a
switch to no-person (see the counterexample). -/
theorem C9_failure_paths (extract : List ℕ → Option (List ℝ))
    (db : List (String × List ℝ)) (freshId : String) (s : ServiceState)
    (image : List ℕ) (now : ℚ) :
    (image.length = 0 →
      processFrame extract db freshId s image now
        = ((s.current_person_id, false), s, [])) ∧
    ((processFrame extract db freshId s image now).1.2 = false →
      (processFrame extract db freshId s image now).1.1 = s.current_person_id ∧
      (processFrame extract db freshId s image now).2.1.current_person_id
        = s.current_person_id) := by
  constructor
  · intro h
    unfold processFrame
    rw [if_pos h]
  · intro h
    by_cases hlen : image.length = 0
    · unfold processFrame
      rw [if_pos hlen]
      exact ⟨rfl, rfl⟩
    · unfold processFrame at h ⊢
      rw [if_neg hlen] at h ⊢
      dsimp only at h ⊢
      exact processRecognizedFrame_no_switch _ _ now h

/-- Witness for `C9_failure_paths`: the empty frame leaves an explicit
state untouched. -/
theorem C9_failure_paths_witness :
    processFrame (fun _ => none) [] "fresh"
        ⟨[], some "p1", [], 10, 10, []⟩ [] 0
      = ((some "p1", false), ⟨[], some "p1", [], 10, 10, []⟩, []) :=
  (C9_failure_paths (fun _ => none) [] "fresh"
    ⟨[], some "p1", [], 10, 10, []⟩ [] 0).1 rfl

/-- C9, counterexample: a non-empty but undecodable frame (the extractor
yields no embedding, exactly as `get_embedding_from_image_data` does on
decode failure) is recorded as a `None` observation.  On a state where
`"p1"` is committed and the window already holds six `None` entries at
an estimated 10 FPS (threshold 7), this frame makes `process_frame`
return `(None, True)` and clear the committed person — not
`(current_person_id, False)` with the person unchanged, as the claim
requires for every failure input. -/
theorem C9_counterexample :
    (processFrame (fun _ => none) [] "fresh"
        ⟨[some "p1", some "p1", some "p1", none, none, none, none, none, none],
          some "p1", [0, 0, 0, 0, 0, 0, 0, 0, 0], 10, 10, []⟩ [37] 0).1
      = (none, true) ∧
    (processFrame (fun _ => none) [] "fresh"
        ⟨[some "p1", some "p1", some "p1", none, none, none, none, none, none],
          some "p1", [0, 0, 0, 0, 0, 0, 0, 0, 0], 10, 10, []⟩ [37] 0
      ).2.1.current_person_id = none := by
  have hrec : recognizePerson (fun _ => none) [] "fresh" [] [37]
      = (none, [], []) := rfl
  have hfps : fpsFromTimestamps ([0, 0, 0, 0, 0, 0, 0, 0, 0] ++ [(0 : ℚ)]) = 10 := by
    unfold fpsFromTimestamps
    norm_num
  have hpy10 : pyInt (10 : ℚ) = 10 := by
    rw [show (10 : ℚ) = ((10 : ℕ) : ℚ) by norm_num, pyInt_natCast]
    norm_num
  have hpy7 : pyInt (7 * 10 / 10 : ℚ) = 7 := by
    rw [show (7 * 10 / 10 : ℚ) = ((7 : ℕ) : ℚ) by norm_num, pyInt_natCast]
    norm_num
  have hupd : updateFps
      ⟨[some "p1", some "p1", some "p1", none, none, none, none, none, none],
        some "p1", [0, 0, 0, 0, 0, 0, 0, 0, 0], 10, 10, []⟩ 0 =
      ⟨[some "p1", some "p1", some "p1", none, none, none, none, none, none],
        some "p1", [0, 0, 0, 0, 0, 0, 0, 0, 0, 0], 10, 10, []⟩ := by
    unfold updateFps
    dsimp only
    rw [if_neg (by norm_num [fpsWindowSize]), hfps, hpy10]
    rfl
  have hhist : updateFrameHistory
      ⟨[some "p1", some "p1", some "p1", none, none, none, none, none, none],
        some "p1", [0, 0, 0, 0, 0, 0, 0, 0, 0], 10, 10, []⟩ none 0 =
      ⟨[some "p1", some "p1", some "p1", none, none, none, none, none, none, none],
        some "p1", [0, 0, 0, 0, 0, 0, 0, 0, 0, 0], 10, 10, []⟩ := by
    unfold updateFrameHistory
    rw [hupd]
    dsimp only
    rw [if_neg (by norm_num)]
    rfl
  have hssw : shouldSwitchToNoPerson
      ⟨[some "p1", some "p1", some "p1", none, none, none, none, none, none, none],
        some "p1", [0, 0, 0, 0, 0, 0, 0, 0, 0, 0], 10, 10, []⟩ = true := by
    unfold shouldSwitchToNoPerson noPersonThreshold
    dsimp only
    rw [hpy7]
    norm_num [countNone]
  have hmain : processRecognizedFrame
      ⟨[some "p1", some "p1", some "p1", none, none, none, none, none, none],
        some "p1", [0, 0, 0, 0, 0, 0, 0, 0, 0], 10, 10, []⟩ none 0 =
      ((none, true),
        ⟨[some "p1", some "p1", some "p1", none, none, none, none, none, none, none],
          none, [0, 0, 0, 0, 0, 0, 0, 0, 0, 0], 10, 10, []⟩, ["p1"]) := by
    unfold processRecognizedFrame
    rw [hhist]
    dsimp only
    rw [if_pos ⟨by simp, rfl⟩, if_pos hssw]
    rfl
  constructor
  · unfold processFrame
    rw [if_neg (by norm_num)]
    dsimp only
    rw [hrec]
    dsimp only
    rw [hmain]
  · unfold processFrame
    rw [if_neg (by norm_num)]
    dsimp only
    rw [hrec]
    dsimp only
    rw [hmain]


/-! ## C5 — gallery lookup -/

/-- Invariants of the `find_best_match` entry loop: the running best
never decreases, the final best dominates the similarity of every valid
(non-empty, non-zero-norm) gallery entry, and a returned id either came
in with the accumulator or achieves the final best on some valid
entry. -/
theorem findBestLoop_spec (q : List ℝ) (qn : ℝ) :
    ∀ (db : List (String × List ℝ)) (acc : Option String × ℝ),
      acc.2 ≤ (findBestLoop q qn db acc).2 ∧
      (∀ pe ∈ db, pe.2.length ≠ 0 → normL pe.2 ≠ 0 →
        dotL q pe.2 / (qn * normL pe.2) ≤ (findBestLoop q qn db acc).2) ∧
      (∀ p, (findBestLoop q qn db acc).1 = some p →
        findBestLoop q qn db acc = acc ∨
        ∃ e, (p, e) ∈ db ∧ e.length ≠ 0 ∧ normL e ≠ 0 ∧
          (findBestLoop q qn db acc).2 = dotL q e / (qn * normL e)) := by
  intro db
  induction db with
  | nil =>
      intro acc
      refine ⟨le_refl _, ?_, fun p _ => Or.inl rfl⟩
      intro pe hpe
      simp at hpe
  | cons hd rest ih =>
      intro acc
      obtain ⟨pid, e⟩ := hd
      simp only [findBestLoop]
      split
      · rename_i hlen0
        obtain ⟨h1, h2, h3⟩ := ih acc
        refine ⟨h1, ?_, ?_⟩
        · intro pe hpe hplen hpnorm
          rcases List.mem_cons.mp hpe with heq | hmem
          · subst heq
            exact absurd hlen0 hplen
          · exact h2 pe hmem hplen hpnorm
        · intro p hp
          rcases h3 p hp with hacc | ⟨e2, hmem, hl, hn, he⟩
          · exact Or.inl hacc
          · exact Or.inr ⟨e2, List.mem_cons_of_mem _ hmem, hl, hn, he⟩
      · split
        · rename_i hlen0 hnorm0
          obtain ⟨h1, h2, h3⟩ := ih acc
          refine ⟨h1, ?_, ?_⟩
          · intro pe hpe hplen hpnorm
            rcases List.mem_cons.mp hpe with heq | hmem
            · subst heq
              exact absurd hnorm0 hpnorm
            · exact h2 pe hmem hplen hpnorm
          · intro p hp
            rcases h3 p hp with hacc | ⟨e2, hmem, hl, hn, he⟩
            · exact Or.inl hacc
            · exact Or.inr ⟨e2, List.mem_cons_of_mem _ hmem, hl, hn, he⟩
        · rename_i hlen0 hnorm0
          split
          · rename_i hgt
            obtain ⟨h1, h2, h3⟩ :=
              ih (some pid, dotL q e / (qn * normL e))
            refine ⟨?_, ?_, ?_⟩
            · exact le_trans (le_of_lt hgt) h1
            · intro pe hpe hplen hpnorm
              rcases List.mem_cons.mp hpe with heq | hmem
              · subst heq
                exact h1
              · exact h2 pe hmem hplen hpnorm
            · intro p hp
              rcases h3 p hp with hacc | ⟨e2, hmem, hl, hn, he⟩
              · have hpid : p = pid := by
                  have := congrArg Prod.fst hacc
                  rw [hp] at this
                  simpa using this
                subst hpid
                refine Or.inr ⟨e, List.mem_cons_self _ _, hlen0, hnorm0, ?_⟩
                have := congrArg Prod.snd hacc
                simpa using this
              · exact Or.inr ⟨e2, List.mem_cons_of_mem _ hmem, hl, hn, he⟩
          · rename_i hngt
            push_neg at hngt
            obtain ⟨h1, h2, h3⟩ := ih acc
            refine ⟨h1, ?_, ?_⟩
            · intro pe hpe hplen hpnorm
              rcases List.mem_cons.mp hpe with heq | hmem
              · subst heq
                exact le_trans hngt h1
              · exact h2 pe hmem hplen hpnorm
            · intro p hp
              rcases h3 p hp with hacc | ⟨e2, hmem, hl, hn, he⟩
              · exact Or.inl hacc
              · exact Or.inr ⟨e2, List.mem_cons_of_mem _ hmem, hl, hn, he⟩

/-- C5, counterexample: a gallery whose iteration order is
`[("b", [1]), ("a", [1])]` — both entries carry the same embedding as
the query, hence exactly equal cosine similarity `1` — yields
`("b", 1)`: the strict `score > best_score` comparison keeps the first
entry in gallery iteration order, not the lexicographically smaller id
`"a"` that the claim requires. -/
theorem C5_counterexample :
    findBestMatch [1] [("b", [1]), ("a", [1])] = (some "b", 1) ∧
    cosineSim [(1 : ℝ)] [1] = 1 ∧
    "a" < "b" := by
  have hss : sumSq [(1 : ℝ)] = 1 := by
    unfold sumSq
    simp
  have hn : normL [(1 : ℝ)] = 1 := by
    unfold normL
    rw [hss, Real.sqrt_one]
  have hd : dotL [(1 : ℝ)] [1] = 1 := by
    unfold dotL
    simp
  have hcs : cosineSim [(1 : ℝ)] [1] = 1 := by
    unfold cosineSim
    rw [hn, hd]
    norm_num
  refine ⟨?_, hcs, String.lt_iff_toList_lt.mpr (by decide)⟩
  unfold findBestMatch
  rw [if_neg (by simp), if_neg (by simp), if_neg (by rw [hn]; norm_num)]
  simp only [findBestLoop]
  rw [hd, hn]
  norm_num

/-- C5, amended: gallery lookup computes cosine similarity of the query
against every valid gallery entry; the returned best similarity
dominates every entry's similarity and is attained by some entry when an
id is returned; `recognize_person` accepts the match exactly when the
best similarity reaches the `0.2` threshold, and below the threshold it
ignores the gallery and answers with a fresh `Unnamed_*` id (leaving the
session averages untouched, since the create call always raises
`TypeError`).  When several entries attain the best similarity, the one
kept is the earliest in gallery iteration order — not the
lexicographically smallest id (see the counterexample). -/
theorem C5_best_match (q : List ℝ) (db : List (String × List ℝ))
    (hqlen : q.length ≠ 0) (hqn : normL q ≠ 0) :
    (∀ pe ∈ db, pe.2.length ≠ 0 → normL pe.2 ≠ 0 →
      cosineSim q pe.2 ≤ (findBestMatch q db).2) ∧
    (∀ p, (findBestMatch q db).1 = some p →
      ∃ e, (p, e) ∈ db ∧ cosineSim q e = (findBestMatch q db).2) ∧
    (∀ (extract : List ℕ → Option (List ℝ)) (freshId : String)
        (avgs : Averages) (image : List ℕ) (e : List ℝ) (m : String),
      image.length ≠ 0 → extract image = some e →
      (findBestMatch e db).1 = some m →
      matchThreshold ≤ (findBestMatch e db).2 →
      (recognizePerson extract db freshId avgs image).1 = some m) ∧
    (∀ (extract : List ℕ → Option (List ℝ)) (freshId : String)
        (avgs : Averages) (image : List ℕ) (e : List ℝ),
      image.length ≠ 0 → extract image = some e →
      (findBestMatch e db).2 < matchThreshold →
      (recognizePerson extract db freshId avgs image).1 = some freshId ∧
      (recognizePerson extract db freshId avgs image).2.1 = avgs) := by
  have hcall : ∀ w : FaceWrite,
      callCreateOrUpdateFace
        ["person_id", "embedding", "count", "person_name"] w = .error () :=
    fun w => rfl
  refine ⟨?_, ?_, ?_, ?_⟩
  · intro pe hpe hplen hpnorm
    by_cases hdb : db = []
    · subst hdb
      simp at hpe
    · unfold findBestMatch
      rw [if_neg hdb, if_neg hqlen, if_neg hqn]
      exact (findBestLoop_spec q (normL q) db (none, -1)).2.1 pe hpe hplen hpnorm
  · intro p hp
    by_cases hdb : db = []
    · subst hdb
      unfold findBestMatch at hp
      simp at hp
    · unfold findBestMatch at hp ⊢
      rw [if_neg hdb, if_neg hqlen, if_neg hqn] at hp ⊢
      rcases (findBestLoop_spec q (normL q) db (none, -1)).2.2 p hp
        with hacc | ⟨e, hmem, _, _, he⟩
      · rw [hacc] at hp
        simp at hp
      · exact ⟨e, hmem, he.symm⟩
  · intro extract freshId avgs image e m himg hext hbid hthr
    unfold recognizePerson
    rw [if_neg himg, hext]
    dsimp only
    rw [hbid]
    dsimp only
    rw [if_pos hthr]
  · intro extract freshId avgs image e himg hext hlt
    unfold recognizePerson
    rw [if_neg himg, hext]
    dsimp only
    cases hbid : (findBestMatch e db).1 with
    | some m =>
        dsimp only
        rw [if_neg (not_le.mpr hlt), if_pos (Or.inr hlt), hcall]
        exact ⟨rfl, rfl⟩
    | none =>
        dsimp only
        rw [if_pos (Or.inr hlt), hcall]
        exact ⟨rfl, rfl⟩

/-- Witness for `C5_best_match` on a one-entry gallery. -/
theorem C5_best_match_witness :
    cosineSim [(1 : ℝ)] [1] ≤ (findBestMatch [1] [("a", [1])]).2 ∧
    (recognizePerson (fun _ => some [1]) [("a", [1])] "fresh" [] [9]).1
      = some "a" := by
  have hqn : normL [(1 : ℝ)] ≠ 0 := by
    unfold normL sumSq
    simp
  have hbest : findBestMatch [1] [("a", [1])] = (some "a", 1) := by
    have hn : normL [(1 : ℝ)] = 1 := by
      unfold normL sumSq
      simp
    have hd : dotL [(1 : ℝ)] [1] = 1 := by
      unfold dotL
      simp
    unfold findBestMatch
    rw [if_neg (by simp), if_neg (by simp), if_neg hqn]
    simp only [findBestLoop]
    rw [hd, hn]
    norm_num
  constructor
  · exact (C5_best_match [1] [("a", [1])] (by simp) hqn).1 ("a", [1])
      (by simp) (by simp) hqn
  · refine (C5_best_match [1] [("a", [1])] (by simp) hqn).2.2.1
      (fun _ => some [1]) "fresh" [] [9] [1] "a" (by simp) rfl ?_ ?_
    · rw [hbest]
    · rw [hbest]
      unfold matchThreshold
      norm_num

/-! ## C8 — transcript routing -/

/-- Recording tool calls never touches the message history (inner
fold). -/
theorem foldToolCalls_messages (now : ℚ) (tcs : List (String × String)) :
    ∀ st : ConvState,
      (tcs.foldl (fun a tc => addToolCall a tc.1 tc.2 now) st).messages
        = st.messages := by
  induction tcs with
  | nil => intro st; rfl
  | cons hd tl ih =>
      intro st
      rw [List.foldl_cons, ih]
      rfl

/-- Recording tool calls never touches the message history. -/
theorem recordToolCalls_messages (now : ℚ) (msgs : List RespMsg) :
    ∀ st : ConvState, (recordToolCalls st msgs now).messages = st.messages := by
  unfold recordToolCalls
  induction msgs with
  | nil => intro st; rfl
  | cons hd tl ih =>
      intro st
      rw [List.foldl_cons, ih, foldToolCalls_messages]

/-- The agent never appends messages itself. -/
theorem processUtterance_messages (render : RespMsg → String)
    (resp : Except Unit (List RespMsg)) (st : ConvState) (now : ℚ) :
    (processUtterance render resp st now).2.messages = st.messages := by
  cases resp with
  | error _ => rfl
  | ok msgs =>
      unfold processUtterance
      dsimp only
      split
      · rfl
      · split
        · exact recordToolCalls_messages now msgs st
        · split
          · exact recordToolCalls_messages now msgs st
          · exact recordToolCalls_messages now msgs st

/-- C8, counterexample: the LangGraph turn returns a single `AIMessage`
with whitespace-only content `" "` and no tool calls.  No tool was
invoked and the agent did return reply text, yet `process_utterance`
strips it to empty, falls back to the sentinel and the router appends no
assistant Message — the history holds only the user Message, contrary to
the claim that a turn without tool invocation appends the reply. -/
theorem C8_counterexample :
    (handleTurnComplete (fun m => m.content) (.ok [⟨true, " ", []⟩]) "hello" 0
        ⟨[], none, "c0", [], some "pX", some true⟩).1.messages
      = [⟨"user", "hello", 0, some "pX"⟩] ∧
    toolWasCalled [⟨true, " ", []⟩] = false ∧
    (" " : String) ≠ "" := by
  refine ⟨?_, by decide, by decide⟩
  rfl

/-- C8, amended: for every routed transcript that is non-empty after
trimming, the user Message (tagged with the current PersonId) is
appended first; if the agent invoked any tool the reply is suppressed
(the router gets the sentinel and no assistant Message is appended); and
otherwise the reply is appended as an assistant Message provided it is
non-empty after trimming and is not itself the sentinel string — an
empty, whitespace-only or failed reply is suppressed exactly like a
tool-invoking turn. -/
theorem C8_routing (render : RespMsg → String)
    (resp : Except Unit (List RespMsg)) (utterance : String) (now : ℚ)
    (st : ConvState) (hutt : pyStrip utterance ≠ "") :
    (∃ rest, (handleTurnComplete render resp utterance now st).1.messages
      = st.messages ++ ⟨"user", utterance, now, st.current_person_id⟩ :: rest) ∧
    (∀ msgs, resp = .ok msgs → toolWasCalled msgs = true →
      (handleTurnComplete render resp utterance now st).2
        = some noFurtherResponse ∧
      (handleTurnComplete render resp utterance now st).1.messages
        = st.messages ++ [⟨"user", utterance, now, st.current_person_id⟩]) ∧
    (∀ msgs, resp = .ok msgs → msgs ≠ [] → toolWasCalled msgs = false →
      pyStrip (agentReplyText render msgs) ≠ "" →
      agentReplyText render msgs ≠ noFurtherResponse →
      (handleTurnComplete render resp utterance now st).2
        = some (agentReplyText render msgs) ∧
      (handleTurnComplete render resp utterance now st).1.messages
        = st.messages ++ [⟨"user", utterance, now, st.current_person_id⟩,
            ⟨"assistant", agentReplyText render msgs, now, none⟩]) := by
  have hguard : ¬ (utterance = "" ∨ pyStrip utterance = "") := by
    rintro (h1 | h2)
    · apply hutt
      rw [h1]
      rfl
    · exact hutt h2
  refine ⟨?_, ?_, ?_⟩
  · unfold handleTurnComplete
    rw [if_neg hguard]
    dsimp only
    split
    · refine ⟨[⟨"assistant",
        (processUtterance render resp
          (addMessage st "user" utterance st.current_person_id now) now).1,
        now, none⟩], ?_⟩
      dsimp only
      rw [show ∀ s2 : ConvState, ∀ r,
          (addMessage s2 "assistant" r none now).messages
            = s2.messages ++ [⟨"assistant", r, now, none⟩] from fun _ _ => rfl]
      rw [processUtterance_messages]
      simp [addMessage]
    · refine ⟨[], ?_⟩
      dsimp only
      rw [processUtterance_messages]
      simp [addMessage]
  · intro msgs hresp htool
    subst hresp
    have hne : msgs ≠ [] := by
      intro h
      subst h
      simp [toolWasCalled] at htool
    have hout : processUtterance render (.ok msgs)
        (addMessage st "user" utterance st.current_person_id now) now
        = (noFurtherResponse, recordToolCalls
            (addMessage st "user" utterance st.current_person_id now) msgs now) := by
      unfold processUtterance
      dsimp only
      rw [if_neg hne, if_pos htool]
    unfold handleTurnComplete
    rw [if_neg hguard]
    dsimp only
    rw [hout]
    dsimp only
    rw [if_neg (by simp)]
    refine ⟨rfl, ?_⟩
    dsimp only
    rw [recordToolCalls_messages]
    simp [addMessage]
  · intro msgs hresp hne htool htrim hns
    subst hresp
    have hout : processUtterance render (.ok msgs)
        (addMessage st "user" utterance st.current_person_id now) now
        = (agentReplyText render msgs, recordToolCalls
            (addMessage st "user" utterance st.current_person_id now) msgs now) := by
      unfold processUtterance
      dsimp only
      rw [if_neg hne, if_neg (by simp [htool]), if_pos htrim]
    unfold handleTurnComplete
    rw [if_neg hguard]
    dsimp only
    rw [hout]
    dsimp only
    rw [if_pos hns]
    refine ⟨rfl, ?_⟩
    dsimp only
    rw [show ∀ s2 : ConvState, ∀ r,
        (addMessage s2 "assistant" r none now).messages
          = s2.messages ++ [⟨"assistant", r, now, none⟩] from fun _ _ => rfl]
    rw [recordToolCalls_messages]
    simp [addMessage]

/-- Witness for `C8_routing` on a concrete plain-reply turn. -/
theorem C8_routing_witness :
    (handleTurnComplete (fun m => m.content) (.ok [⟨true, "sure", []⟩]) "hi" 0
        ⟨[], none, "c0", [], some "pZ", some true⟩).2
      = some (agentReplyText (fun m => m.content) [⟨true, "sure", []⟩]) ∧
    (handleTurnComplete (fun m => m.content) (.ok [⟨true, "sure", []⟩]) "hi" 0
        ⟨[], none, "c0", [], some "pZ", some true⟩).1.messages
      = [] ++ [⟨"user", "hi", 0, some "pZ"⟩,
          ⟨"assistant", agentReplyText (fun m => m.content) [⟨true, "sure", []⟩],
            0, none⟩] :=
  (C8_routing (fun m => m.content) (.ok [⟨true, "sure", []⟩]) "hi" 0
      ⟨[], none, "c0", [], some "pZ", some true⟩ (by decide)).2.2
    [⟨true, "sure", []⟩] rfl (by decide) (by decide) (by decide) (by decide)

/-! ## C10 — session-only centroid write -/

/-- A key absent from the association list makes the existence check
fail. -/
theorem lookup_none_any_false (avgs : Averages) (m : String)
    (h : List.lookup m avgs = none) :
    avgs.any (fun p => p.1 == m) = false := by
  induction avgs with
  | nil => rfl
  | cons hd tl ih =>
      obtain ⟨k, v⟩ := hd
      cases hmk : (m == k) with
      | true =>
          simp only [List.lookup, hmk] at h
          simp at h
      | false =>
          simp only [List.lookup, hmk] at h
          have hk2 : (k == m) = false :=
            beq_eq_false_iff_ne.mpr (Ne.symm (beq_eq_false_iff_ne.mp hmk))
          simp [List.any_cons, hk2, ih h]

/-- Looking up past a prefix that lacks the key. -/
theorem lookup_append_of_none (l l2 : Averages) (m : String)
    (h : List.lookup m l = none) :
    List.lookup m (l ++ l2) = List.lookup m l2 := by
  induction l with
  | nil => rfl
  | cons hd tl ih =>
      obtain ⟨k, v⟩ := hd
      cases hmk : (m == k) with
      | true =>
          simp only [List.lookup, hmk] at h
          simp at h
      | false =>
          simp only [List.lookup, hmk] at h
          rw [List.cons_append]
          simp only [List.lookup, hmk]
          exact ih h

/-- Assigning a fresh key makes it retrievable. -/
theorem lookup_setAvg_of_none (avgs : Averages) (m : String) (v : List ℝ × ℕ)
    (h : List.lookup m avgs = none) :
    List.lookup m (setAvg avgs m v) = some v := by
  unfold setAvg
  rw [if_neg (by rw [lookup_none_any_false avgs m h]; exact Bool.false_ne_true)]
  rw [lookup_append_of_none avgs [(m, v)] m h]
  simp [List.lookup]

/-- C10: the leave-time centroid write persists only the in-session
running average.  On the first in-session match the average is
initialised to that frame's embedding with count 1 regardless of the
stored centroid or count; `_save_averaged_embedding` issues exactly the
write `(p, session average, session count)`; and applying that write to
a stored row overwrites the row's embedding and count with the
session-only values (the recap column alone survives through
COALESCE). -/
theorem C10_session_only_centroid (avgs : Averages) (m : String)
    (frameE avgE storedE : List ℝ) (c storedCount : ℕ)
    (storedRecap : Option String) (hm : m ≠ "") :
    (List.lookup m avgs = none →
      List.lookup m (foldSessionAverage avgs m frameE) = some (frameE, 1)) ∧
    (List.lookup m avgs = some (avgE, c) → avgE.length ≠ 0 →
      saveAveragedEmbedding avgs m = [⟨m, some avgE, some c, none⟩]) ∧
    applyFaceWrite [⟨m, some storedE, some storedCount, storedRecap⟩]
        ⟨m, some avgE, some c, none⟩
      = [⟨m, some avgE, some c, storedRecap⟩] := by
  refine ⟨?_, ?_, ?_⟩
  · intro h
    unfold foldSessionAverage
    rw [h]
    exact lookup_setAvg_of_none avgs m (frameE, 1) h
  · intro h hlen
    unfold saveAveragedEmbedding
    rw [if_neg hm, h]
    dsimp only
    rw [if_neg hlen]
    rfl
  · unfold applyFaceWrite
    simp

/-- Witness for `C10_session_only_centroid` at concrete values. -/
theorem C10_session_only_centroid_witness :
    List.lookup "p" (foldSessionAverage [] "p" [1]) = some ([1], 1) ∧
    saveAveragedEmbedding [("p", ([2], 4))] "p" = [⟨"p", some [2], some 4, none⟩] ∧
    applyFaceWrite [⟨"p", some [9], some 77, some "old recap"⟩]
        ⟨"p", some [2], some 4, none⟩
      = [⟨"p", some [2], some 4, some "old recap"⟩] :=
  ⟨(C10_session_only_centroid [] "p" [1] [2] [9] 4 77 (some "old recap")
      (by decide)).1 rfl,
   (C10_session_only_centroid [("p", ([2], 4))] "p" [1] [2] [9] 4 77
      (some "old recap") (by decide)).2.1 rfl (by decide),
   (C10_session_only_centroid [] "p" [1] [2] [9] 4 77 (some "old recap")
      (by decide)).2.2⟩


end HackUTD
